import Mathlib

/-!
Shallow embedding of the mqtt-pin repository (src/pin.rs, src/helper.rs).

Conventions of the embedding:
* Rust machine integers `u8`/`u16`/`u32` are modelled as `Nat`; every place
  the source parses one, the parser enforces the corresponding `< 2^w` bound,
  so no arithmetic in the embedded code can overflow the original width.
* `f32` values (`Temperature`) are idealised as `ℚ` (exact rational
  arithmetic in place of IEEE rounding).
* `chrono::DateTime<Local>` timestamps are modelled as `ℤ` (seconds);
  `Duration::seconds(n)` addition becomes integer addition.  Every clock
  read (`Local::now()`) inside one call is modelled by the single `now`
  argument of that call.
* `ArrayDeque<[PinState; 20], Wrapping>` with `push_front` is modelled as a
  newest-first `List PinState`; a wrapping `push_front` keeps the first 20
  elements, evicting the back (oldest) element when full.
* `Result<T, &str>` becomes `Except String T`, `Option` becomes `Option`.
-/

namespace MqttPin

/-- Fold a digit list into the number it denotes (helper for the
`str::parse` models below). -/
def digitsToNat (cs : List Char) : Nat :=
  cs.foldl (fun acc c => acc * 10 + (c.toNat - 48)) 0

/-- All-digit, non-empty strings parse; anything else is rejected. -/
def parseDigits (cs : List Char) : Option Nat :=
  if cs ≠ [] ∧ cs.all Char.isDigit then some (digitsToNat cs) else none

/-- Model of Rust `str::parse::<uN>()` where `bound = 2^N`: an optional
leading `+`, then one or more ASCII digits, value below the bound
(otherwise the parse errors with overflow). -/
def parseUnsigned (bound : Nat) (s : String) : Option Nat :=
  let cs := s.toList
  let cs2 := match cs with
    | '+' :: rest => rest
    | _ => cs
  match parseDigits cs2 with
  | some n => if n < bound then some n else none
  | none => none

/-- Model of Rust `str::parse::<f32>()` at the external boundary, idealised
to `ℚ`: optional sign, integer digits, optional fractional digits.
(Exponent, `inf` and `NaN` forms are omitted; no claim depends on them.) -/
def parseDecimal (s : String) : Option ℚ :=
  let go : List Char → Option ℚ := fun cs2 =>
    let intPart := cs2.takeWhile Char.isDigit
    let rest := cs2.dropWhile Char.isDigit
    match rest with
    | [] => if intPart ≠ [] then some ((digitsToNat intPart : ℚ)) else none
    | '.' :: fracPart =>
      if intPart ≠ [] ∧ fracPart ≠ [] ∧ fracPart.all Char.isDigit then
        some ((digitsToNat intPart : ℚ)
          + (digitsToNat fracPart : ℚ) / ((10 : ℚ) ^ fracPart.length))
      else none
    | _ => none
  match s.toList with
  | '-' :: rest => (go rest).map (fun q => -q)
  | '+' :: rest => go rest
  | cs => go cs

/-- `struct Temperature { value: f32 }` (pin.rs:9-13), value idealised
to `ℚ`. -/
structure Temperature where
  value : ℚ
deriving DecidableEq

/-- `Temperature::new` (derived constructor). -/
def Temperature.new (value : ℚ) : Temperature := ⟨value⟩

/-- `enum PinValue { Temperature, Analog(u16), Digital(bool) }`
(pin.rs:43-49). -/
inductive PinValue where
  | Temperature (t : MqttPin.Temperature)
  | Analog (v : Nat)
  | Digital (b : Bool)
deriving DecidableEq

/-- `PinValue::is_digital` (pin.rs:72-75). -/
def PinValue.is_digital : PinValue → Bool
  | PinValue.Digital _ => true
  | _ => false

/-- `PinValue::is_analog` (pin.rs:77-80). -/
def PinValue.is_analog : PinValue → Bool
  | PinValue.Analog _ => true
  | _ => false

/-- `PinValue::is_temperature` (pin.rs:82-85). -/
def PinValue.is_temperature : PinValue → Bool
  | PinValue.Temperature _ => true
  | _ => false

/-- `PinValue::is_on` (pin.rs:87-90). -/
def PinValue.is_on : PinValue → Bool
  | PinValue.Analog v => decide (v > 0)
  | PinValue.Digital v => v == true
  | _ => false

/-- `PinValue::as_u16` (pin.rs:92-95). -/
def PinValue.as_u16 : PinValue → Nat
  | PinValue.Analog v => v
  | PinValue.Digital v => if v = true then 1 else 0
  | _ => 0

/-- `PinValue::from_string` (pin.rs:53-70): decode a kind tag plus payload
into a typed value (the error strings are copied verbatim from the
source, including its spelling). -/
def PinValue.from_string (kind : String) (message : String) :
    Except String PinValue :=
  if kind = "digital" then
    match parseUnsigned 256 message with
    | some v => Except.ok (PinValue.Digital (decide (v > 0)))
    | none => Except.error "Unable to parse digital value"
  else if kind = "analog" then
    match parseUnsigned 65536 message with
    | some v => Except.ok (PinValue.Analog v)
    | none => Except.error "Unable to parse analog value"
  else if kind = "temperature" then
    match parseDecimal message with
    | some v => Except.ok (PinValue.Temperature ⟨v⟩)
    | none => Except.error "Unable to parse temparature value"
  else
    Except.error "Unknown pin value type"

/-- `struct PinState` (pin.rs:98-105): pin id (`u8`), value, observation
time `dt`, optional expiry `until`. -/
structure PinState where
  pin : Nat
  value : PinValue
  dt : ℤ
  untilDt : Option ℤ
deriving DecidableEq

/-- `PinState::is_on` (pin.rs:109-112). -/
def PinState.is_on (s : PinState) : Bool := s.value.is_on

/-- `struct PinOperation` (pin.rs:115-120). -/
structure PinOperation where
  pin_state : PinState
  node : String
deriving DecidableEq

/-- The segment-popping core of `PinOperation::from_message`
(pin.rs:131-149).  `paths` is the split topic with `Vec::pop` order made
explicit: the list is the reversed segment list, so Rust's pop-from-end
is `head`/`tail` here.  Each step mirrors one statement of the source:
pop the pin (`u8`), pop the kind and decode the payload, pop `op_current`,
pop `node`; on the non-`current` branch, try to parse `op_current` as a
`u32` timeout, pop one more segment and compare it with `"timeout"`
(the source computes this comparison but only tests `is_some()` on it),
set `until` when both that segment existed and the timeout parsed, and
in that case pop yet another segment as the node. -/
def PinOperation.from_paths (paths : List String) (text : String)
    (now : ℤ) : Except String PinOperation :=
  match paths with
  | [] => Except.error "Unable to read string"
  | pinSeg :: p1 =>
    match parseUnsigned 256 pinSeg with
    | none => Except.error "Unable to parse integer"
    | some pin =>
      match p1 with
      | [] => Except.error "Unknown pin"
      | kindSeg :: p2 =>
        match PinValue.from_string kindSeg text with
        | Except.error e => Except.error e
        | Except.ok value =>
          match p2 with
          | [] => Except.error "Expected current"
          | op_current :: p3 =>
            match p3 with
            | [] => Except.error "Unknown node"
            | node :: p4 =>
              if op_current = "current" then
                Except.ok ⟨⟨pin, value, now, none⟩, node⟩
              else
                let timeout := parseUnsigned 4294967296 op_current
                let is_time_out := p4.head?.map (fun s => s == "timeout")
                let p5 := p4.tail
                let untilDt : Option ℤ :=
                  if is_time_out.isSome && timeout.isSome then
                    some (now + (timeout.getD 0 : ℤ))
                  else none
                if untilDt.isSome then
                  match p5 with
                  | [] => Except.error "Unknown node after timeout"
                  | node2 :: _ => Except.ok ⟨⟨pin, value, now, untilDt⟩, node2⟩
                else
                  Except.ok ⟨⟨pin, value, now, untilDt⟩, node⟩

/-- Model of Rust `str::split('/')` as used by `from_message`: cut the
character list at every `'/'`, keeping empty segments, exactly as the
collected `Vec<&str>` does (so `""` gives one empty segment and
`"a//b"` gives three segments). -/
def splitSlash : List Char → List (List Char)
  | [] => [[]]
  | c :: rest =>
    if c = '/' then [] :: splitSlash rest
    else
      match splitSlash rest with
      | [] => [[c]]
      | w :: ws => (c :: w) :: ws

/-- `PinOperation::from_message` (pin.rs:131-149): split the topic on `/`
(collecting in order, as `Vec`), then run the popping core; `now` models
the `Local::now()` clock reads of the call. -/
def PinOperation.from_message (topic : String) (text : String)
    (now : ℤ) : Except String PinOperation :=
  PinOperation.from_paths (((splitSlash topic.data).map String.mk).reverse)
    text now

/-- `struct PinCollection` (pin.rs:153-158): two wrapping deques of
capacity 20, newest-first. -/
structure PinCollection where
  states : List PinState
  changed : List PinState
deriving DecidableEq

/-- `ArrayDeque<[PinState; 20], Wrapping>::push_front`: prepend and keep
at most 20 entries, evicting the back (oldest) element when full. -/
def pushWrapping (s : PinState) (l : List PinState) : List PinState :=
  (s :: l).take 20

/-- `PinCollection::default` (pin.rs:162-165). -/
def PinCollection.default : PinCollection := ⟨[], []⟩

/-- `PinCollection::push` (pin.rs:176-202): change detection against the
most recent `changed` entry of the same variant, then unconditional
prepend to `states`. -/
def PinCollection.push (col : PinCollection) (state : PinState) :
    PinCollection :=
  let changed :=
    match state.value with
    | PinValue.Digital v =>
      match (col.changed.filter (fun s => s.value.is_digital)).head? with
      | some s =>
        match s.value with
        | PinValue.Digital c =>
          if v ≠ c then pushWrapping state col.changed else col.changed
        | _ => col.changed
      | none => pushWrapping state col.changed
    | PinValue.Analog v =>
      match (col.changed.filter (fun s => s.value.is_analog)).head? with
      | some s =>
        match s.value with
        | PinValue.Analog c =>
          if (c = 0 ∧ v > 0) ∨ (c > 0 ∧ v = 0) then
            pushWrapping state col.changed
          else col.changed
        | _ => col.changed
      | none => pushWrapping state col.changed
    | _ => col.changed
  ⟨pushWrapping state col.states, changed⟩

/-- `PinCollection::from_states` (pin.rs:167-174): replay an
oldest-to-newest sequence through `push`. -/
def PinCollection.from_states (states : List PinState) : PinCollection :=
  states.foldl (fun col state => col.push state) PinCollection.default

/-- `average` (helper.rs:5-13): fold-then-divide over a numeric sequence,
0 for the empty sequence; numeric type idealised to `ℚ`. -/
def average (numbers : List ℚ) : ℚ :=
  if numbers.length > 0 then
    (numbers.foldl (fun sum value => sum + value) 0) / (numbers.length : ℚ)
  else 0

/-- `PinCollection::get_average_temperature` (pin.rs:204-216): average the
temperature readings strictly newer than `since`, `none` when there are
none. -/
def PinCollection.get_average_temperature (col : PinCollection)
    (since : ℤ) : Option Temperature :=
  let vec : List ℚ :=
    (col.states.filter (fun state => decide (since < state.dt))).filterMap
      (fun state =>
        match state.value with
        | PinValue.Temperature v => some v.value
        | _ => none)
  if vec.length > 0 then some (Temperature.new (average vec)) else none

/-- `PinCollection::is_on` (pin.rs:218-221): front of `changed` is
unexpired (`until` absent or strictly in the future) and on-valued. -/
def PinCollection.is_on (col : PinCollection) (now : ℤ) : Bool :=
  (col.changed.head?.map (fun state =>
    (state.untilDt.map (fun dt => decide (dt > now))).getD true
      && match state.value with
         | PinValue.Digital v => v
         | PinValue.Analog v => decide (v > 0)
         | _ => false)).getD false

/-- `PinCollection::is_off` (pin.rs:223-226): front of `changed` is
unexpired and off-valued. -/
def PinCollection.is_off (col : PinCollection) (now : ℤ) : Bool :=
  (col.changed.head?.map (fun state =>
    (state.untilDt.map (fun dt => decide (dt > now))).getD true
      && match state.value with
         | PinValue.Digital v => !v
         | PinValue.Analog v => decide (v = 0)
         | _ => false)).getD false

/-- `PinCollection::get_last_changed_dt` (pin.rs:228-231). -/
def PinCollection.get_last_changed_dt (col : PinCollection) : Option ℤ :=
  col.changed.head?.map (fun s => s.dt)

/-- `PinCollection::get_last_changed_value` (pin.rs:233-237). -/
def PinCollection.get_last_changed_value (col : PinCollection) :
    Option PinValue :=
  col.changed.head?.map (fun s => s.value)

/-- `PinCollection::get_last_changed` (pin.rs:239-242). -/
def PinCollection.get_last_changed (col : PinCollection) :
    Option PinState :=
  col.changed.head?

/-- `percent_to_analog` (helper.rs:27-30).  The source takes a `u8`,
widens to `u32` for the multiplication (no overflow for inputs below
256) and narrows the result to `u16`; for inputs below 100 the result is
at most 1012, so the narrowing never truncates and plain `Nat`
arithmetic is exact. -/
def percent_to_analog (num : Nat) : Nat :=
  if num ≥ 100 then 1023 else num * 1023 / 100

end MqttPin

namespace MqttPin

/-- C1: the claim states that parsing topic `node1/timeout/3600/analog/8`
with payload `2332` succeeds.  It does not: after popping pin, kind and
the seconds segment, the source pops `timeout` as the node, consumes
`node1` as the marker segment, and then finds no segment left for the
node, so the parse fails with `Unknown node after timeout`. -/
theorem from_message_five_segment_timeout_fails :
    PinOperation.from_message "node1/timeout/3600/analog/8" "2332" 0
      = Except.error "Unknown node after timeout" := rfl

/-- C1 (amended): the timeout form needs six segments, as in the source's
own doc-comment example: parsing `node1/current/timeout/3600/analog/8`
with payload `2332` succeeds and yields node `node1`, pin 8, value
`Analog 2332`, observation time `now` and expiry `now + 3600`. -/
theorem from_message_six_segment_timeout_ok (now : ℤ) :
    PinOperation.from_message "node1/current/timeout/3600/analog/8" "2332"
        now
      = Except.ok ⟨⟨8, PinValue.Analog 2332, now, some (now + 3600)⟩,
          "node1"⟩ := rfl

/-- C2: the claim states that pushing `Analog 0`, `Analog 50`, `Analog 80`
into an empty collection leaves exactly one `changed` entry.  It leaves
two: the very first analog push is also recorded, because `changed`
holds no analog entry yet. -/
theorem push_analog_zero_fifty_eighty_not_one :
    (((PinCollection.default.push ⟨1, PinValue.Analog 0, 0, none⟩).push
        ⟨1, PinValue.Analog 50, 1, none⟩).push
        ⟨1, PinValue.Analog 80, 2, none⟩).changed.length ≠ 1 := by decide

/-- C2 (amended): pushing `Analog 0`, `Analog 50`, `Analog 80` into an
empty collection leaves exactly two `changed` entries, newest first: the
`Analog 50` push (the 0→50 zero-boundary crossing) and the initial
`Analog 0` push (recorded because `changed` held no analog entry); the
50→80 change adds no entry. -/
theorem push_analog_zero_fifty_eighty_changed :
    (((PinCollection.default.push ⟨1, PinValue.Analog 0, 0, none⟩).push
        ⟨1, PinValue.Analog 50, 1, none⟩).push
        ⟨1, PinValue.Analog 80, 2, none⟩).changed
      = [⟨1, PinValue.Analog 50, 1, none⟩, ⟨1, PinValue.Analog 0, 0, none⟩]
      := rfl

/-- C7: a push whose `Digital` boolean equals the most recent `Digital`
entry of `changed` leaves `changed` untouched; concretely, pushing
`Digital true` twice into an empty collection leaves exactly one
`changed` entry. -/
theorem push_digital_no_duplicate :
    (∀ (col : PinCollection) (state s : PinState) (v : Bool),
        state.value = PinValue.Digital v →
        (col.changed.filter (fun x => x.value.is_digital)).head? = some s →
        s.value = PinValue.Digital v →
        (col.push state).changed = col.changed)
    ∧ ((PinCollection.default.push ⟨1, PinValue.Digital true, 0, none⟩).push
        ⟨1, PinValue.Digital true, 1, none⟩).changed.length = 1 := by
  constructor
  · intro col state s v hstate hhead hs
    simp [PinCollection.push, hstate, hhead, hs]
  · rfl

/-- C7 (witness): a concrete repeated `Digital true` push recorded no new
transition. -/
theorem push_digital_no_duplicate_witness :
    (⟨1, PinValue.Digital true, 5, none⟩ : PinState).value
        = PinValue.Digital true
    ∧ ((PinCollection.mk [] [⟨1, PinValue.Digital true, 0, none⟩]).push
        ⟨1, PinValue.Digital true, 5, none⟩).changed
      = (PinCollection.mk [] [⟨1, PinValue.Digital true, 0, none⟩]).changed :=
  ⟨rfl, push_digital_no_duplicate.1 ⟨[], [⟨1, PinValue.Digital true, 0, none⟩]⟩
    ⟨1, PinValue.Digital true, 5, none⟩ ⟨1, PinValue.Digital true, 0, none⟩
    true rfl rfl rfl⟩

/-- C8: parsing the two-segment topic `bad/topic` with any payload at any
receive time returns an error (the pin segment `topic` fails the `u8`
parse) rather than panicking; the embedded parser is a total function,
so every input yields an `ok` or `error` result. -/
theorem from_message_bad_topic_errors (text : String) (now : ℤ) :
    PinOperation.from_message "bad/topic" text now
      = Except.error "Unable to parse integer" := rfl

/-- C9: `percent_to_analog` maps 0 to 0, 50 to 511 and 100 to 1023, clamps
every input above 100 to 1023, and is the linear scale
`num * 1023 / 100` (floor division) below 100. -/
theorem percent_to_analog_spec :
    percent_to_analog 0 = 0
    ∧ percent_to_analog 50 = 511
    ∧ percent_to_analog 100 = 1023
    ∧ (∀ n : Nat, 100 < n → percent_to_analog n = 1023)
    ∧ (∀ n : Nat, n < 100 → percent_to_analog n = n * 1023 / 100) := by
  refine ⟨rfl, rfl, rfl, ?_, ?_⟩
  · intro n h
    unfold percent_to_analog
    rw [if_pos (by omega)]
  · intro n h
    unfold percent_to_analog
    rw [if_neg (by omega)]

/-- C9 (witness): the clamp and the linear branch evaluated at concrete
inputs. -/
theorem percent_to_analog_spec_witness :
    (100 < 200 ∧ percent_to_analog 200 = 1023)
    ∧ (30 < 100 ∧ percent_to_analog 30 = 30 * 1023 / 100) :=
  ⟨⟨by decide, percent_to_analog_spec.2.2.2.1 200 (by decide)⟩,
   ⟨by decide, percent_to_analog_spec.2.2.2.2 30 (by decide)⟩⟩

/-- C10: `as_u16` is total over all three variants: every `Temperature`
value maps to 0, `Analog v` to `v`, `Digital true` to 1 and
`Digital false` to 0, so a `Temperature` reading is indistinguishable
from `Digital false` or `Analog 0` through this coercion. -/
theorem as_u16_total (t : Temperature) (v : Nat) :
    PinValue.as_u16 (PinValue.Temperature t) = 0
    ∧ PinValue.as_u16 (PinValue.Analog v) = v
    ∧ PinValue.as_u16 (PinValue.Digital true) = 1
    ∧ PinValue.as_u16 (PinValue.Digital false) = 0
    ∧ PinValue.as_u16 (PinValue.Temperature t)
        = PinValue.as_u16 (PinValue.Digital false)
    ∧ PinValue.as_u16 (PinValue.Temperature t)
        = PinValue.as_u16 (PinValue.Analog 0) :=
  ⟨rfl, rfl, rfl, rfl, rfl, rfl⟩

end MqttPin

namespace MqttPin

/-- C3: the claim states that an expiry is produced only when the segment
popped after the seconds equals the literal `timeout`.  It is not: the
source compares that segment with `timeout` but discards the result,
testing only that the segment exists, so the six-segment topic
`x/a/b/3600/analog/8` parses successfully with an expiry although the
marker segment popped there is `a`. -/
theorem from_message_accepts_wrong_marker :
    ("a" ≠ "timeout")
    ∧ PinOperation.from_message "x/a/b/3600/analog/8" "7" 0
        = Except.ok ⟨⟨8, PinValue.Analog 7, 0, some 3600⟩, "x"⟩ :=
  ⟨by decide, rfl⟩

/-- C3 (amended): for every topic whose third popped segment is not
`current`: if that segment fails the `u32` parse, or no fifth segment
exists to pop, the parse succeeds *without* an expiry using the fourth
popped segment as node (no `InvalidTimeout`-style error exists); if the
seconds parse and exactly one further segment exists (the fifth pop),
the parse fails with `Unknown node after timeout`; if the seconds parse
and at least two further segments exist, the parse succeeds with expiry
`now + seconds` and the sixth popped segment as node, regardless of
whether the fifth popped segment equals `timeout` (no
`MissingTimeoutMarker`-style error exists). -/
theorem from_paths_timeout_branch_behavior (pinSeg kindSeg opSeg nodeSeg :
      String)
    (rest : List String) (text : String) (now : ℤ) (pin : Nat)
    (value : PinValue)
    (hpin : parseUnsigned 256 pinSeg = some pin)
    (hval : PinValue.from_string kindSeg text = Except.ok value)
    (hcur : opSeg ≠ "current") :
    (parseUnsigned 4294967296 opSeg = none →
      PinOperation.from_paths (pinSeg :: kindSeg :: opSeg :: nodeSeg :: rest)
          text now = Except.ok ⟨⟨pin, value, now, none⟩, nodeSeg⟩)
    ∧ (∀ t, parseUnsigned 4294967296 opSeg = some t →
        ((rest = [] →
          PinOperation.from_paths
              (pinSeg :: kindSeg :: opSeg :: nodeSeg :: rest) text now
            = Except.ok ⟨⟨pin, value, now, none⟩, nodeSeg⟩)
        ∧ (∀ m, rest = [m] →
            PinOperation.from_paths
                (pinSeg :: kindSeg :: opSeg :: nodeSeg :: rest) text now
              = Except.error "Unknown node after timeout")
        ∧ (∀ m n2 l2, rest = m :: n2 :: l2 →
            PinOperation.from_paths
                (pinSeg :: kindSeg :: opSeg :: nodeSeg :: rest) text now
              = Except.ok ⟨⟨pin, value, now, some (now + (t : ℤ))⟩, n2⟩))) := by
  unfold PinOperation.from_paths
  simp only [hpin, hval]
  rw [if_neg hcur]
  constructor
  · intro hto
    simp [hto]
  · intro t ht
    refine ⟨?_, ?_, ?_⟩
    · rintro rfl
      simp [ht]
    · rintro m rfl
      simp [ht]
    · rintro m n2 l2 rfl
      simp [ht]

/-- C3 (witness): the timeout branch evaluated on concrete segments with
a non-`timeout` marker. -/
theorem from_paths_timeout_branch_behavior_witness :
    ("3600" ≠ "current")
    ∧ PinOperation.from_paths ["8", "analog", "3600", "b", "a", "x"] "7" 0
        = Except.ok ⟨⟨8, PinValue.Analog 7, 0,
            some ((0 : ℤ) + ((3600 : Nat) : ℤ))⟩, "x"⟩ :=
  ⟨by decide,
    ((from_paths_timeout_branch_behavior "8" "analog" "3600" "b" ["a", "x"]
        "7" 0 8 (PinValue.Analog 7) rfl rfl (by decide)).2 3600 rfl).2.2
      "a" "x" [] rfl⟩

/-- C4: `is_on` holds exactly when `changed` has a front entry that is
unexpired (expiry absent or strictly after `now`) and on-valued
(`Digital true` or `Analog v` with `v > 0`); `is_off` is the mirror with
`Digital false` or `Analog 0`; an expired front entry, an empty
`changed` buffer, and a `Temperature` front all make both predicates
false. -/
theorem is_on_is_off_front_characterization (col : PinCollection)
    (now : ℤ) :
    (col.is_on now = true ↔
      ∃ s, col.changed.head? = some s
        ∧ (∀ u, s.untilDt = some u → now < u)
        ∧ (s.value = PinValue.Digital true
            ∨ ∃ v, s.value = PinValue.Analog v ∧ 0 < v))
    ∧ (col.is_off now = true ↔
      ∃ s, col.changed.head? = some s
        ∧ (∀ u, s.untilDt = some u → now < u)
        ∧ (s.value = PinValue.Digital false ∨ s.value = PinValue.Analog 0))
    ∧ (∀ s u, col.changed.head? = some s → s.untilDt = some u → u ≤ now →
        col.is_on now = false ∧ col.is_off now = false)
    ∧ (col.changed = [] → col.is_on now = false ∧ col.is_off now = false)
    ∧ (∀ s t, col.changed.head? = some s →
        s.value = PinValue.Temperature t →
        col.is_on now = false ∧ col.is_off now = false) := by
  cases hc : col.changed with
  | nil =>
    simp [PinCollection.is_on, PinCollection.is_off, hc]
  | cons s rest =>
    refine ⟨?_, ?_, ?_, ?_, ?_⟩
    · unfold PinCollection.is_on
      rw [hc]
      cases hu : s.untilDt with
      | none =>
        cases hv : s.value with
        | Temperature t => simp [hu, hv]
        | Analog v => simp [hu, hv]
        | Digital b => simp [hu, hv]
      | some u =>
        cases hv : s.value with
        | Temperature t => simp [hu, hv]
        | Analog v => simp [hu, hv]
        | Digital b => simp [hu, hv]
    · unfold PinCollection.is_off
      rw [hc]
      cases hu : s.untilDt with
      | none =>
        cases hv : s.value with
        | Temperature t => simp [hu, hv]
        | Analog v => simp [hu, hv]
        | Digital b => simp [hu, hv]
      | some u =>
        cases hv : s.value with
        | Temperature t => simp [hu, hv]
        | Analog v => simp [hu, hv]
        | Digital b => simp [hu, hv]
    · intro s2 u hh2 hu hle
      simp only [List.head?_cons, Option.some.injEq] at hh2
      subst hh2
      unfold PinCollection.is_on PinCollection.is_off
      rw [hc]
      simp [hu, not_lt.mpr hle]
    · intro habs
      simp at habs
    · intro s2 t hh2 hv
      simp only [List.head?_cons, Option.some.injEq] at hh2
      subst hh2
      unfold PinCollection.is_on PinCollection.is_off
      rw [hc]
      simp [hv]

/-- C4 (witness): a collection whose front `changed` entry carries an
already-passed expiry satisfies neither predicate, although its raw
value `Analog 5` is on-shaped. -/
theorem is_on_is_off_front_characterization_witness :
    (PinCollection.mk [] [⟨1, PinValue.Analog 5, 0, some 0⟩]).is_on 3
        = false
    ∧ (PinCollection.mk [] [⟨1, PinValue.Analog 5, 0, some 0⟩]).is_off 3
        = false :=
  (is_on_is_off_front_characterization
      ⟨[], [⟨1, PinValue.Analog 5, 0, some 0⟩]⟩ 3).2.2.1
    ⟨1, PinValue.Analog 5, 0, some 0⟩ 0 rfl rfl (by decide)

/-- C5: the primitive `average` returns 0 on the empty sequence and the
arithmetic mean (sum divided by length) on every non-empty sequence;
`get_average_temperature since` returns `none` exactly when no state in
the buffer has `dt > since` and a `Temperature` value, and otherwise
returns the arithmetic mean of the qualifying temperature scalars. -/
theorem get_average_temperature_spec (col : PinCollection) (since : ℤ) :
    average [] = 0
    ∧ (∀ l : List ℚ, l ≠ [] → average l = l.sum / (l.length : ℚ))
    ∧ (col.get_average_temperature since = none ↔
        ∀ s ∈ col.states, ¬ (since < s.dt ∧ s.value.is_temperature = true))
    ∧ (∀ l : List ℚ,
        (col.states.filter (fun state => decide (since < state.dt))).filterMap
            (fun state =>
              match state.value with
              | PinValue.Temperature v => some v.value
              | _ => none) = l →
        l ≠ [] →
        col.get_average_temperature since
          = some ⟨l.sum / (l.length : ℚ)⟩) := by
  have havg : ∀ l : List ℚ, l ≠ [] → average l = l.sum / (l.length : ℚ) := by
    intro l hl
    unfold average
    rw [if_pos (List.length_pos.mpr hl), List.sum_eq_foldl]
  have hf : ∀ s : PinState,
      (match s.value with
       | PinValue.Temperature v => some v.value
       | _ => none) = none ↔ s.value.is_temperature = false := by
    intro s
    cases hv : s.value <;> simp [PinValue.is_temperature, hv]
  set vec : List ℚ :=
    (col.states.filter (fun state => decide (since < state.dt))).filterMap
      (fun state =>
        match state.value with
        | PinValue.Temperature v => some v.value
        | _ => none) with hvec
  have hgat : col.get_average_temperature since
      = if vec.length > 0 then some (Temperature.new (average vec))
        else none := rfl
  refine ⟨rfl, havg, ?_, ?_⟩
  · rw [hgat]
    by_cases h : vec.length > 0
    · rw [if_pos h]
      constructor
      · intro habs
        exact absurd habs (by simp)
      · intro hall
        exfalso
        have hnil : vec = [] := by
          rw [hvec, List.filterMap_eq_nil_iff]
          intro a ha
          rw [List.mem_filter] at ha
          rw [hf a]
          cases htv : a.value.is_temperature
          · rfl
          · exact absurd ⟨of_decide_eq_true ha.2, htv⟩ (hall a ha.1)
        rw [hnil] at h
        simp at h
    · rw [if_neg h]
      constructor
      · intro _ s hs hcond
        have hnil : vec = [] := List.length_eq_zero.mp (by omega)
        rw [hvec, List.filterMap_eq_nil_iff] at hnil
        have hsf : s ∈ col.states.filter
            (fun state => decide (since < state.dt)) :=
          List.mem_filter.mpr ⟨hs, decide_eq_true hcond.1⟩
        have hnone := hnil s hsf
        rw [hf s] at hnone
        rw [hnone] at hcond
        exact absurd hcond.2 (by simp)
      · intro _
        rfl
  · intro l hl hne
    rw [hgat]
    have hlen : vec.length > 0 := by
      rw [hl]
      exact List.length_pos.mpr hne
    rw [if_pos hlen]
    subst hl
    rw [havg vec hne]
    rfl

/-- C5 (witness): two temperature readings newer than `since = 0` average
to their arithmetic mean. -/
theorem get_average_temperature_spec_witness :
    ([(20 : ℚ), 10] ≠ [])
    ∧ (PinCollection.mk
        [⟨3, PinValue.Temperature ⟨20⟩, 5, none⟩,
         ⟨3, PinValue.Temperature ⟨10⟩, 6, none⟩] []).get_average_temperature
          0
      = some ⟨[(20 : ℚ), 10].sum / (([(20 : ℚ), 10].length : ℚ))⟩ :=
  ⟨by decide,
    (get_average_temperature_spec
        ⟨[⟨3, PinValue.Temperature ⟨20⟩, 5, none⟩,
          ⟨3, PinValue.Temperature ⟨10⟩, 6, none⟩], []⟩ 0).2.2.2
      [(20 : ℚ), 10] (by decide) (by decide)⟩

/-- C6: every collection built by replaying pushes from empty keeps both
buffers at 20 entries or fewer, and a wrapping push into a full
20-entry buffer prepends the new entry, drops the oldest (last) one and
leaves exactly 20 entries — the 20 newest. -/
theorem collection_capacity_twenty :
    (∀ l : List PinState,
        (PinCollection.from_states l).states.length ≤ 20
        ∧ (PinCollection.from_states l).changed.length ≤ 20)
    ∧ (∀ (s : PinState) (l : List PinState), l.length = 20 →
        pushWrapping s l = s :: l.dropLast
        ∧ (pushWrapping s l).length = 20) := by
  have hpw : ∀ (x : PinState) (l : List PinState),
      (pushWrapping x l).length ≤ 20 := by
    intro x l
    unfold pushWrapping
    simp [List.length_take]
  have hpushs : ∀ (col : PinCollection) (s : PinState),
      (col.push s).states.length ≤ 20 := by
    intro col s
    have h : (col.push s).states = pushWrapping s col.states := rfl
    rw [h]
    exact hpw s col.states
  have hpushc : ∀ (col : PinCollection) (s : PinState),
      col.changed.length ≤ 20 → (col.push s).changed.length ≤ 20 := by
    intro col s hc
    unfold PinCollection.push
    cases hv : s.value <;> simp only [hv]
    · exact hc
    · split
      · split
        · split
          · exact hpw _ _
          · exact hc
        · exact hc
      · exact hpw _ _
    · split
      · split
        · split
          · exact hpw _ _
          · exact hc
        · exact hc
      · exact hpw _ _
  constructor
  · have hfold : ∀ (l : List PinState) (col : PinCollection),
        col.states.length ≤ 20 → col.changed.length ≤ 20 →
        (l.foldl (fun c st => c.push st) col).states.length ≤ 20
        ∧ (l.foldl (fun c st => c.push st) col).changed.length ≤ 20 := by
      intro l
      induction l with
      | nil =>
        intro col h1 h2
        exact ⟨h1, h2⟩
      | cons st rest ih =>
        intro col h1 h2
        exact ih (col.push st) (hpushs col st) (hpushc col st h2)
    intro l
    exact hfold l PinCollection.default (by decide) (by decide)
  · intro s l hl
    unfold pushWrapping
    constructor
    · rw [List.take_succ_cons, List.dropLast_eq_take, hl]
    · simp [List.length_take, hl]

/-- C6 (witness): pushing into a full 20-entry buffer keeps the 20 newest
entries and drops the oldest. -/
theorem collection_capacity_twenty_witness :
    (List.replicate 20 (⟨1, PinValue.Digital true, 0, none⟩ :
        PinState)).length = 20
    ∧ pushWrapping ⟨2, PinValue.Digital false, 1, none⟩
        (List.replicate 20 ⟨1, PinValue.Digital true, 0, none⟩)
      = ⟨2, PinValue.Digital false, 1, none⟩
        :: (List.replicate 20 (⟨1, PinValue.Digital true, 0, none⟩ :
            PinState)).dropLast :=
  ⟨by simp,
    (collection_capacity_twenty.2 ⟨2, PinValue.Digital false, 1, none⟩
      (List.replicate 20 ⟨1, PinValue.Digital true, 0, none⟩) (by simp)).1⟩

end MqttPin
